import Mathlib

/-!
Verification of `saleor/graphql/discount/types/promotions.py`: a shallow
embedding of the promotion GraphQL types' resolver logic (event-kind lookup
table, interface/union type resolution, `created_by` principal resolution
with access check, `rule_id` extraction, permission-gated `channels`, and
the delegating `rules`/`events` resolvers), together with theorems about it.
-/

/-! ## Event kinds and the variant lookup table -/

/-- Modelled from the spec: the `PromotionEvents` enumeration constants
(`events.PROMOTION_CREATED`, ...) are imported from `saleor.discount`, which
is outside the sources at hand; the spec names the seven kind values
`promotion_created`, `promotion_updated`, `promotion_started`,
`promotion_ended`, `rule_created`, `rule_updated`, `rule_deleted`. -/
def PROMOTION_CREATED : String := "promotion_created"

/-- Modelled from the spec (see `PROMOTION_CREATED`). -/
def PROMOTION_UPDATED : String := "promotion_updated"

/-- Modelled from the spec (see `PROMOTION_CREATED`). -/
def PROMOTION_STARTED : String := "promotion_started"

/-- Modelled from the spec (see `PROMOTION_CREATED`). -/
def PROMOTION_ENDED : String := "promotion_ended"

/-- Modelled from the spec (see `PROMOTION_CREATED`). -/
def RULE_CREATED : String := "rule_created"

/-- Modelled from the spec (see `PROMOTION_CREATED`). -/
def RULE_UPDATED : String := "rule_updated"

/-- Modelled from the spec (see `PROMOTION_CREATED`). -/
def RULE_DELETED : String := "rule_deleted"

/-- The seven concrete GraphQL variant types for promotion events, one per
`ModelObjectType` subclass declared in the source file. -/
inductive EventVariant where
  | PromotionCreatedEvent
  | PromotionUpdatedEvent
  | PromotionStartedEvent
  | PromotionEndedEvent
  | PromotionRuleCreatedEvent
  | PromotionRuleUpdatedEvent
  | PromotionRuleDeletedEvent
  deriving DecidableEq, Repr

/-- Python `dict.get(key)` over an association list (a Python dict literal has
unique keys, so first-match lookup is faithful): returns the stored value, or
`none` when the key is absent. -/
def dictGet {α : Type} (d : List (String × α)) (k : String) : Option α :=
  match d with
  | [] => none
  | (k₁, v) :: rest => if k₁ = k then some v else dictGet rest k

/-- The static `PROMOTION_EVENT_MAP` dict from the source: event kind →
concrete variant type, exactly seven entries. -/
def PROMOTION_EVENT_MAP : List (String × EventVariant) :=
  [ (PROMOTION_CREATED, EventVariant.PromotionCreatedEvent),
    (PROMOTION_UPDATED, EventVariant.PromotionUpdatedEvent),
    (PROMOTION_STARTED, EventVariant.PromotionStartedEvent),
    (PROMOTION_ENDED, EventVariant.PromotionEndedEvent),
    (RULE_CREATED, EventVariant.PromotionRuleCreatedEvent),
    (RULE_UPDATED, EventVariant.PromotionRuleUpdatedEvent),
    (RULE_DELETED, EventVariant.PromotionRuleDeletedEvent) ]

/-! ## Data model (`models.PromotionEvent`, `models.Promotion`,
`models.PromotionRule` as the resolvers read them) -/

/-- The fields of a `models.PromotionEvent` record that the resolvers in this
file read: `type` (the kind enumerant), the optional `user_id`/`app_id`
foreign keys, and the `parameters` JSON document (modelled as a string-keyed
association list with unique keys, Python-dict style). -/
structure PromotionEventRecord where
  id : Nat
  type : String
  user_id : Option Nat
  app_id : Option Nat
  parameters : List (String × String)
  deriving DecidableEq, Repr

/-- The fields of a `models.Promotion` record read by its resolvers. -/
structure PromotionRecord where
  id : Nat
  deriving DecidableEq, Repr

/-- The fields of a `models.PromotionRule` record read by its resolvers. -/
structure PromotionRuleRecord where
  id : Nat
  promotion_id : Nat
  deriving DecidableEq, Repr

/-- Python truthiness of an optional integer foreign key (`if root.user_id:`):
`None` and `0` are falsy, any other integer is truthy. -/
def optTruthy : Option Nat → Bool
  | none => false
  | some n => n != 0

/-! ## Principals, permissions and the request context -/

structure User where
  id : Nat
  deriving DecidableEq, Repr

structure App where
  id : Nat
  deriving DecidableEq, Repr

/-- The `UserOrApp` union: the acting principal of an event. -/
inductive UserOrApp where
  | user : User → UserOrApp
  | app : App → UserOrApp
  deriving DecidableEq, Repr

/-- The permission codenames and authorization filters this file mentions:
`AccountPermissions.MANAGE_STAFF`, `AppPermission.MANAGE_APPS`, and the two
caller-class filters `AuthorizationFilters.AUTHENTICATED_APP` /
`AUTHENTICATED_STAFF_USER`. -/
inductive Permission where
  | MANAGE_STAFF
  | MANAGE_APPS
  | AUTHENTICATED_APP
  | AUTHENTICATED_STAFF_USER
  deriving DecidableEq, Repr

/-- The requester returned by `get_user_or_app_from_context`: a principal
together with the permissions it holds and (for users) a staff flag. -/
structure Requester where
  principal : UserOrApp
  perms : List Permission
  is_staff : Bool
  deriving DecidableEq, Repr

/-- Modelled from the spec: an `AuthorizationFilters` entry names a caller
class, not a held permission — `AUTHENTICATED_APP` is satisfied exactly by an
app requester, `AUTHENTICATED_STAFF_USER` exactly by a staff user requester;
an ordinary permission is satisfied when the requester holds it. The filter
evaluation itself lives outside the sources at hand. -/
def satisfiesPermission (r : Requester) : Permission → Bool
  | Permission.AUTHENTICATED_APP =>
      match r.principal with
      | UserOrApp.app _ => true
      | UserOrApp.user _ => false
  | Permission.AUTHENTICATED_STAFF_USER =>
      match r.principal with
      | UserOrApp.user _ => r.is_staff
      | UserOrApp.app _ => false
  | p => r.perms.contains p

/-- The authorization failure raised by the external collaborators. -/
inductive AuthError where
  | permissionDenied
  deriving DecidableEq, Repr

/-- Modelled from the spec: the external collaborator
`check_is_owner_or_has_one_of_perms(requester, owner, *perms)` (from
`saleor.graphql.account.utils`, outside the sources at hand) returns normally
iff the requester is the owner itself or holds one of the given permissions,
and raises an authorization failure otherwise. -/
def check_is_owner_or_has_one_of_perms (requester : Requester)
    (owner : Option UserOrApp) (perms : List Permission) :
    Except AuthError Unit :=
  if owner = some requester.principal ∨ perms.any (fun p => requester.perms.contains p) then
    Except.ok ()
  else
    Except.error AuthError.permissionDenied

/-- The request context as the resolvers use it: the current requester (if
any) and the batched loaders, each modelled by its pure key → value contract
(`load(key) -> value-or-null`, or a list for the list-valued loaders). -/
structure Context where
  requester : Option Requester
  userById : Nat → Option User
  appById : Nat → Option App
  channelsByPromotionRuleId : Nat → List Nat
  promotionRulesByPromotionId : Nat → List PromotionRuleRecord
  promotionEventsByPromotionId : Nat → List PromotionEventRecord
  promotionById : Nat → Option PromotionRecord

/-- Observable effects of a resolution: calls into the batched loaders and
invocations of the ownership-or-permission check. -/
inductive Effect where
  | loadUser (id : Nat)
  | loadApp (id : Nat)
  | permCheck (requester : UserOrApp) (owner : Option UserOrApp)
      (perms : List Permission)
  deriving DecidableEq, Repr

/-! ## Resolvers -/

namespace Promotion

/-- `Promotion.resolve_rules`: delegate to
`PromotionRulesByPromotionIdLoader(info.context).load(root.id)`. -/
def resolve_rules (ctx : Context) (root : PromotionRecord) :
    List PromotionRuleRecord :=
  ctx.promotionRulesByPromotionId root.id

/-- `Promotion.resolve_events`: delegate to
`PromotionEventsByPromotionIdLoader(info.context).load(root.id)`. -/
def resolve_events (ctx : Context) (root : PromotionRecord) :
    List PromotionEventRecord :=
  ctx.promotionEventsByPromotionId root.id

end Promotion

namespace PromotionRule

/-- `PromotionRule.resolve_promotion`: delegate to
`PromotionByIdLoader(info.context).load(root.promotion_id)`. -/
def resolve_promotion (ctx : Context) (root : PromotionRuleRecord) :
    Option PromotionRecord :=
  ctx.promotionById root.promotion_id

/-- `PromotionRule.resolve_channels`: delegate to
`ChannelsByPromotionRuleIdLoader(info.context).load(root.id)`. -/
def resolve_channels (ctx : Context) (root : PromotionRuleRecord) :
    List Nat :=
  ctx.channelsByPromotionRuleId root.id

/-- The `permissions=[...]` list declared on the `channels`
`PermissionsField` in the source. -/
def channels_permissions : List Permission :=
  [Permission.AUTHENTICATED_APP, Permission.AUTHENTICATED_STAFF_USER]

end PromotionRule

/-- Modelled from the spec: the host engine's authorization middleware for a
`PermissionsField` (external collaborator) runs before the resolver and
denies unauthenticated or under-privileged callers; an authorized caller gets
the resolver's value. -/
def resolveGatedField {α : Type} (perms : List Permission)
    (requester : Option Requester) (resolver : Unit → α) : Except AuthError α :=
  match requester with
  | none => Except.error AuthError.permissionDenied
  | some r =>
      if perms.any (fun p => satisfiesPermission r p) then
        Except.ok (resolver ())
      else
        Except.error AuthError.permissionDenied

/-- The gated resolution of `PromotionRule.channels`: middleware enforcing the
field's declared permissions, then `resolve_channels`. -/
def resolveChannelsGated (ctx : Context) (root : PromotionRuleRecord) :
    Except AuthError (List Nat) :=
  resolveGatedField PromotionRule.channels_permissions ctx.requester
    (fun _ => PromotionRule.resolve_channels ctx root)

namespace PromotionEvent

/-- `PromotionEvent.resolve_type` (the interface-level resolution):
`PROMOTION_EVENT_MAP.get(instance.type)`. -/
def resolve_type (inst : PromotionEventRecord) : Option EventVariant :=
  dictGet PROMOTION_EVENT_MAP inst.type

/-- `PromotionEvent.resolve_created_by`, with the effects (loader calls and
permission checks) it performs recorded alongside the result. Mirrors the
source: requester guard, then the `user_id` branch (load the user, then
`_resolve_user` checks ownership-or-`MANAGE_STAFF` and returns the user),
then the `app_id` branch (load the app, then `_resolve_app` checks
ownership-or-`MANAGE_APPS`), else `None`. -/
def resolve_created_by (ctx : Context) (root : PromotionEventRecord) :
    Except AuthError (Option UserOrApp) × List Effect :=
  match ctx.requester with
  | none => (Except.ok none, [])
  | some requester =>
    if optTruthy root.user_id then
      let uid := root.user_id.getD 0
      let user := (ctx.userById uid).map UserOrApp.user
      let checked := check_is_owner_or_has_one_of_perms requester user
        [Permission.MANAGE_STAFF]
      let effs := [Effect.loadUser uid,
        Effect.permCheck requester.principal user [Permission.MANAGE_STAFF]]
      match checked with
      | Except.ok _ => (Except.ok user, effs)
      | Except.error e => (Except.error e, effs)
    else if optTruthy root.app_id then
      let aid := root.app_id.getD 0
      let app := (ctx.appById aid).map UserOrApp.app
      let checked := check_is_owner_or_has_one_of_perms requester app
        [Permission.MANAGE_APPS]
      let effs := [Effect.loadApp aid,
        Effect.permCheck requester.principal app [Permission.MANAGE_APPS]]
      match checked with
      | Except.ok _ => (Except.ok app, effs)
      | Except.error e => (Except.error e, effs)
    else
      (Except.ok none, [])

end PromotionEvent

namespace PromotionRuleEvent

/-- `PromotionRuleEvent.resolve_rule_id`:
`root.parameters.get("rule_id", None)`. -/
def resolve_rule_id (root : PromotionEventRecord) : Option String :=
  dictGet root.parameters "rule_id"

end PromotionRuleEvent

namespace UnionPromotionEvent

/-- `UnionPromotionEvent.resolve_type` (the union-level resolution), written
out separately in the source: `PROMOTION_EVENT_MAP.get(instance.type)`. -/
def resolve_type (inst : PromotionEventRecord) : Option EventVariant :=
  dictGet PROMOTION_EVENT_MAP inst.type

/-- The union's member types: `[v for v in PROMOTION_EVENT_MAP.values()]`. -/
def union_types : List EventVariant :=
  PROMOTION_EVENT_MAP.map (fun kv => kv.2)

end UnionPromotionEvent

/-! ## Dictionary lookup lemmas -/

theorem dictGet_eq_none_of_not_mem {α : Type} (d : List (String × α)) (k : String)
    (h : ∀ kv ∈ d, kv.1 ≠ k) : dictGet d k = none := by
  induction d with
  | nil => rfl
  | cons kv rest ih =>
      obtain ⟨k₁, v₁⟩ := kv
      rw [dictGet, if_neg (h (k₁, v₁) (List.mem_cons_self _ _))]
      exact ih fun kv2 hm => h kv2 (List.mem_cons_of_mem _ hm)

theorem dictGet_eq_some_of_mem {α : Type} (d : List (String × α)) (k : String) (v : α)
    (hnd : (d.map Prod.fst).Nodup) (hm : (k, v) ∈ d) : dictGet d k = some v := by
  induction d with
  | nil => cases hm
  | cons kv rest ih =>
      obtain ⟨k₁, v₁⟩ := kv
      simp only [List.map_cons, List.nodup_cons] at hnd
      rcases List.mem_cons.mp hm with heq | hmem
      · cases heq
        simp [dictGet]
      · have hk : k₁ ≠ k := by
          intro hkk
          subst hkk
          exact hnd.1 (List.mem_map.mpr ⟨(k₁, v), hmem, rfl⟩)
        rw [dictGet, if_neg hk]
        exact ih hnd.2 hmem

/-- Unfolding of `resolve_created_by` when a requester is present and the
`user_id` foreign key is truthy: the user branch runs. -/
theorem resolve_created_by_user_branch_eq (ctx : Context) (req : Requester)
    (e : PromotionEventRecord) (hreq : ctx.requester = some req)
    (ht : optTruthy e.user_id = true) :
    PromotionEvent.resolve_created_by ctx e =
      (match check_is_owner_or_has_one_of_perms req
          ((ctx.userById (e.user_id.getD 0)).map UserOrApp.user)
          [Permission.MANAGE_STAFF] with
       | Except.ok _ =>
           (Except.ok ((ctx.userById (e.user_id.getD 0)).map UserOrApp.user),
            [Effect.loadUser (e.user_id.getD 0),
             Effect.permCheck req.principal
               ((ctx.userById (e.user_id.getD 0)).map UserOrApp.user)
               [Permission.MANAGE_STAFF]])
       | Except.error er =>
           (Except.error er,
            [Effect.loadUser (e.user_id.getD 0),
             Effect.permCheck req.principal
               ((ctx.userById (e.user_id.getD 0)).map UserOrApp.user)
               [Permission.MANAGE_STAFF]])) := by
  simp only [PromotionEvent.resolve_created_by, hreq, ht, if_true]

/-! ## Claim theorems -/

/-- C1: for every `PromotionEvent` instance, the interface-level type
resolution (`PromotionEvent.resolve_type`) and the union-level type
resolution (`UnionPromotionEvent.resolve_type`) return the identical result:
both consult `PROMOTION_EVENT_MAP` at the instance's kind field, so for every
possible kind value the two resolution paths agree. -/
theorem interface_union_resolve_type_agree (e : PromotionEventRecord) :
    PromotionEvent.resolve_type e = UnionPromotionEvent.resolve_type e := rfl

/-- C3: the event-kind lookup is total over the declared kind enumeration —
each of the exactly seven declared kinds is mapped to exactly one concrete
variant type (the respective one), the map has exactly seven entries with
pairwise-distinct keys, and distinct kinds map to distinct variant types. -/
theorem promotion_event_map_total :
    dictGet PROMOTION_EVENT_MAP PROMOTION_CREATED
      = some EventVariant.PromotionCreatedEvent ∧
    dictGet PROMOTION_EVENT_MAP PROMOTION_UPDATED
      = some EventVariant.PromotionUpdatedEvent ∧
    dictGet PROMOTION_EVENT_MAP PROMOTION_STARTED
      = some EventVariant.PromotionStartedEvent ∧
    dictGet PROMOTION_EVENT_MAP PROMOTION_ENDED
      = some EventVariant.PromotionEndedEvent ∧
    dictGet PROMOTION_EVENT_MAP RULE_CREATED
      = some EventVariant.PromotionRuleCreatedEvent ∧
    dictGet PROMOTION_EVENT_MAP RULE_UPDATED
      = some EventVariant.PromotionRuleUpdatedEvent ∧
    dictGet PROMOTION_EVENT_MAP RULE_DELETED
      = some EventVariant.PromotionRuleDeletedEvent ∧
    PROMOTION_EVENT_MAP.length = 7 ∧
    (PROMOTION_EVENT_MAP.map Prod.fst).Nodup ∧
    (PROMOTION_EVENT_MAP.map Prod.snd).Nodup := by
  decide

/-- C2: for every event whose kind field is not one of the seven declared
kinds, both the interface type resolution and the union type resolution
return an absent match (`none`), never an error. -/
theorem unknown_kind_resolves_none (e : PromotionEventRecord)
    (h : e.type ∉ [PROMOTION_CREATED, PROMOTION_UPDATED, PROMOTION_STARTED,
      PROMOTION_ENDED, RULE_CREATED, RULE_UPDATED, RULE_DELETED]) :
    PromotionEvent.resolve_type e = none ∧
    UnionPromotionEvent.resolve_type e = none := by
  simp only [List.mem_cons, List.not_mem_nil, or_false, not_or] at h
  obtain ⟨h1, h2, h3, h4, h5, h6, h7⟩ := h
  have hmem : ∀ kv ∈ PROMOTION_EVENT_MAP, kv.1 ≠ e.type := by
    intro kv hkv
    simp only [PROMOTION_EVENT_MAP, List.mem_cons, List.not_mem_nil,
      or_false] at hkv
    rcases hkv with rfl | rfl | rfl | rfl | rfl | rfl | rfl
    · exact Ne.symm h1
    · exact Ne.symm h2
    · exact Ne.symm h3
    · exact Ne.symm h4
    · exact Ne.symm h5
    · exact Ne.symm h6
    · exact Ne.symm h7
  exact ⟨dictGet_eq_none_of_not_mem _ _ hmem, dictGet_eq_none_of_not_mem _ _ hmem⟩

/-- Witness for C2: an event of the undeclared kind `"bogus"` resolves to no
match at both call sites. -/
theorem unknown_kind_resolves_none_witness :
    PromotionEvent.resolve_type ⟨1, "bogus", none, none, []⟩ = none ∧
    UnionPromotionEvent.resolve_type ⟨1, "bogus", none, none, []⟩ = none :=
  unknown_kind_resolves_none ⟨1, "bogus", none, none, []⟩ (by decide)

/-- C5: when the request context yields no requester,
`resolve_created_by` returns `None` for every event — whatever its
`user_id`/`app_id` — with no loader call and no ownership/permission check
(the effect list is empty). -/
theorem resolve_created_by_no_requester (uL : Nat → Option User)
    (aL : Nat → Option App) (cL : Nat → List Nat)
    (rL : Nat → List PromotionRuleRecord)
    (eL : Nat → List PromotionEventRecord)
    (pL : Nat → Option PromotionRecord) (e : PromotionEventRecord) :
    PromotionEvent.resolve_created_by ⟨none, uL, aL, cL, rL, eL, pL⟩ e =
      (Except.ok none, []) := rfl

/-- C6: for every event with both `user_id` and `app_id` unset,
`resolve_created_by` returns `None` unconditionally — for every requester,
with no error raised and no loader call or permission check performed. -/
theorem resolve_created_by_no_principal (ctx : Context) (i : Nat)
    (t : String) (ps : List (String × String)) :
    PromotionEvent.resolve_created_by ctx ⟨i, t, none, none, ps⟩ =
      (Except.ok none, []) := by
  cases hctx : ctx.requester with
  | none => simp [PromotionEvent.resolve_created_by, hctx]
  | some req => simp [PromotionEvent.resolve_created_by, hctx, optTruthy]

/-- C4: for every event with `user_id = U` set and `app_id` unset, with a
requester present, resolving `created_by` returns the batched-loaded user `U`
iff the requester is that user or holds the `MANAGE_STAFF` permission;
otherwise the authorization failure from the check collaborator propagates. -/
theorem created_by_user_iff_owner_or_staff (ctx : Context)
    (e : PromotionEventRecord) (req : Requester) (u : Nat)
    (hreq : ctx.requester = some req) (hu : e.user_id = some u) (hu0 : u ≠ 0)
    (ha : e.app_id = none) :
    ((PromotionEvent.resolve_created_by ctx e).1 =
        Except.ok ((ctx.userById u).map UserOrApp.user) ↔
      ((ctx.userById u).map UserOrApp.user = some req.principal ∨
        Permission.MANAGE_STAFF ∈ req.perms)) ∧
    (¬((ctx.userById u).map UserOrApp.user = some req.principal ∨
        Permission.MANAGE_STAFF ∈ req.perms) →
      (PromotionEvent.resolve_created_by ctx e).1 =
        Except.error AuthError.permissionDenied) := by
  have ht : optTruthy e.user_id = true := by
    rw [hu]
    simpa [optTruthy] using hu0
  have hb := resolve_created_by_user_branch_eq ctx req e hreq ht
  simp only [hu, Option.getD_some] at hb
  by_cases hc : ((ctx.userById u).map UserOrApp.user = some req.principal ∨
      Permission.MANAGE_STAFF ∈ req.perms)
  · have hcond : ((ctx.userById u).map UserOrApp.user = some req.principal ∨
        (List.any [Permission.MANAGE_STAFF]
          (fun p => req.perms.contains p)) = true) := by
      simpa using hc
    have hcheck : check_is_owner_or_has_one_of_perms req
        ((ctx.userById u).map UserOrApp.user) [Permission.MANAGE_STAFF] =
        Except.ok () := by
      simp only [check_is_owner_or_has_one_of_perms]
      rw [if_pos hcond]
    rw [hcheck] at hb
    constructor
    · rw [hb]
      exact iff_of_true rfl hc
    · intro hn
      exact absurd hc hn
  · have hcond : ¬((ctx.userById u).map UserOrApp.user = some req.principal ∨
        (List.any [Permission.MANAGE_STAFF]
          (fun p => req.perms.contains p)) = true) := by
      simpa using hc
    have hcheck : check_is_owner_or_has_one_of_perms req
        ((ctx.userById u).map UserOrApp.user) [Permission.MANAGE_STAFF] =
        Except.error AuthError.permissionDenied := by
      simp only [check_is_owner_or_has_one_of_perms]
      rw [if_neg hcond]
    rw [hcheck] at hb
    constructor
    · rw [hb]
      exact iff_of_false (fun hcontra => by simp at hcontra) hc
    · intro _
      rw [hb]

/-- A concrete context for exercising the `created_by` user branch: a staff
requester holding `MANAGE_STAFF`, and a user loader that finds user 5. -/
def ctx4 : Context :=
  ⟨some ⟨UserOrApp.user ⟨9⟩, [Permission.MANAGE_STAFF], true⟩,
   fun _ => some ⟨5⟩, fun _ => none, fun _ => [], fun _ => [], fun _ => [],
   fun _ => none⟩

/-- Witness for C4: with a `MANAGE_STAFF` requester, the event crediting
user 5 resolves `created_by` to the batched-loaded user 5. -/
theorem created_by_user_iff_owner_or_staff_witness :
    (PromotionEvent.resolve_created_by ctx4
      ⟨1, "promotion_created", some 5, none, []⟩).1 =
      Except.ok (some (UserOrApp.user ⟨5⟩)) :=
  (created_by_user_iff_owner_or_staff ctx4
      ⟨1, "promotion_created", some 5, none, []⟩
      ⟨UserOrApp.user ⟨9⟩, [Permission.MANAGE_STAFF], true⟩ 5 rfl rfl
      (by decide) rfl).1.mpr (Or.inr (by decide))

/-- C7: for every event with both `user_id` and `app_id` set,
`resolve_created_by` follows the user branch: the resolution is identical to
that of the same event with `app_id` erased, the app loader is never
invoked, and whenever a requester is present the performed effects are
exactly the user load followed by the `MANAGE_STAFF`
ownership-or-permission check on the loaded user. -/
theorem created_by_user_branch_precedence (ctx : Context)
    (e : PromotionEventRecord) (u : Nat)
    (hu : e.user_id = some u) (hu0 : u ≠ 0)
    (ha : optTruthy e.app_id = true) :
    PromotionEvent.resolve_created_by ctx e =
      PromotionEvent.resolve_created_by ctx
        ⟨e.id, e.type, e.user_id, none, e.parameters⟩ ∧
    (∀ a, Effect.loadApp a ∉ (PromotionEvent.resolve_created_by ctx e).2) ∧
    (∀ req, ctx.requester = some req →
      (PromotionEvent.resolve_created_by ctx e).2 =
        [Effect.loadUser u,
         Effect.permCheck req.principal ((ctx.userById u).map UserOrApp.user)
           [Permission.MANAGE_STAFF]]) := by
  have ht : optTruthy e.user_id = true := by
    rw [hu]
    simpa [optTruthy] using hu0
  cases hctx : ctx.requester with
  | none =>
      refine ⟨?_, ?_, ?_⟩
      · simp [PromotionEvent.resolve_created_by, hctx]
      · intro a
        simp [PromotionEvent.resolve_created_by, hctx]
      · intro req hreq
        exact absurd hreq (by simp)
  | some req =>
      have hb := resolve_created_by_user_branch_eq ctx req e hctx ht
      have hb2 := resolve_created_by_user_branch_eq ctx req
        ⟨e.id, e.type, e.user_id, none, e.parameters⟩ hctx ht
      simp only [hu, Option.getD_some] at hb hb2
      refine ⟨?_, ?_, ?_⟩
      · rw [hu, hb, hb2]
      · intro a
        rw [hb]
        cases check_is_owner_or_has_one_of_perms req
            ((ctx.userById u).map UserOrApp.user)
            [Permission.MANAGE_STAFF] <;> simp
      · intro req2 hreq2
        injection hreq2 with hr2
        subst hr2
        rw [hb]
        cases check_is_owner_or_has_one_of_perms req
            ((ctx.userById u).map UserOrApp.user)
            [Permission.MANAGE_STAFF] <;> rfl

/-- A concrete context for exercising user-branch precedence: a requester
with no permissions, user loader finding user 3, app loader finding app 4. -/
def ctx7 : Context :=
  ⟨some ⟨UserOrApp.user ⟨9⟩, [], true⟩,
   fun _ => some ⟨3⟩, fun _ => some ⟨4⟩, fun _ => [], fun _ => [],
   fun _ => [], fun _ => none⟩

/-- Witness for C7: on an event with `user_id = 3` and `app_id = 4`, the
effects are exactly the user load and the user permission check — no app
loader call. -/
theorem created_by_user_branch_precedence_witness :
    (PromotionEvent.resolve_created_by ctx7
      ⟨2, "rule_created", some 3, some 4, []⟩).2 =
      [Effect.loadUser 3,
       Effect.permCheck (UserOrApp.user ⟨9⟩) (some (UserOrApp.user ⟨3⟩))
         [Permission.MANAGE_STAFF]] :=
  (created_by_user_branch_precedence ctx7
      ⟨2, "rule_created", some 3, some 4, []⟩ 3 rfl (by decide)
      (by decide)).2.2 ⟨UserOrApp.user ⟨9⟩, [], true⟩ rfl

/-- C8: for every rule-related event, `resolve_rule_id` returns the value
stored under the key `"rule_id"` in the event's parameters document (which,
being a Python dict, has pairwise-distinct keys), and returns `None` — not
an error — when that key is absent from the parameters document. -/
theorem resolve_rule_id_spec (e : PromotionEventRecord) :
    (∀ v, (e.parameters.map Prod.fst).Nodup → ("rule_id", v) ∈ e.parameters →
      PromotionRuleEvent.resolve_rule_id e = some v) ∧
    ((∀ kv ∈ e.parameters, kv.1 ≠ "rule_id") →
      PromotionRuleEvent.resolve_rule_id e = none) :=
  ⟨fun _ hnd hm => dictGet_eq_some_of_mem _ _ _ hnd hm,
   fun h => dictGet_eq_none_of_not_mem _ _ h⟩

/-- Witness for C8: a rule-created event whose parameters store
`"rule_id" ↦ "42"` resolves `rule_id` to `"42"`. -/
theorem resolve_rule_id_spec_witness :
    PromotionRuleEvent.resolve_rule_id
      ⟨1, "rule_created", none, none, [("rule_id", "42")]⟩ = some "42" :=
  (resolve_rule_id_spec ⟨1, "rule_created", none, none, [("rule_id", "42")]⟩).1
    "42" (by decide) (by decide)

/-- C9: the `channels` field of `PromotionRule` is gated to exactly the two
caller classes `AUTHENTICATED_APP` and `AUTHENTICATED_STAFF_USER`; an
authorized caller gets the full channel set the batched loader returns for
the rule's id, while an unauthenticated or under-privileged caller receives
a denial, not a partial list. -/
theorem channels_gated (ctx : Context) (rule : PromotionRuleRecord) :
    (∀ p, p ∈ PromotionRule.channels_permissions ↔
      (p = Permission.AUTHENTICATED_APP ∨
       p = Permission.AUTHENTICATED_STAFF_USER)) ∧
    (ctx.requester = none →
      resolveChannelsGated ctx rule = Except.error AuthError.permissionDenied) ∧
    (∀ req, ctx.requester = some req →
      ((satisfiesPermission req Permission.AUTHENTICATED_APP = true ∨
        satisfiesPermission req Permission.AUTHENTICATED_STAFF_USER = true) →
          resolveChannelsGated ctx rule =
            Except.ok (ctx.channelsByPromotionRuleId rule.id)) ∧
      (¬(satisfiesPermission req Permission.AUTHENTICATED_APP = true ∨
         satisfiesPermission req Permission.AUTHENTICATED_STAFF_USER = true) →
          resolveChannelsGated ctx rule =
            Except.error AuthError.permissionDenied)) := by
  refine ⟨?_, ?_, ?_⟩
  · intro p
    cases p <;> simp [PromotionRule.channels_permissions]
  · intro h
    simp [resolveChannelsGated, resolveGatedField, h]
  · intro req hreq
    constructor
    · intro hone
      have hany : (PromotionRule.channels_permissions.any
          (fun p => satisfiesPermission req p)) = true := by
        rcases hone with h1 | h1 <;>
          simp [PromotionRule.channels_permissions, h1]
      simp [resolveChannelsGated, resolveGatedField, hreq, hany,
        PromotionRule.resolve_channels]
    · intro hnone
      rw [not_or] at hnone
      obtain ⟨h1, h2⟩ := hnone
      have h1f : satisfiesPermission req Permission.AUTHENTICATED_APP = false :=
        Bool.eq_false_iff.mpr h1
      have h2f : satisfiesPermission req Permission.AUTHENTICATED_STAFF_USER
          = false := Bool.eq_false_iff.mpr h2
      have hany : (PromotionRule.channels_permissions.any
          (fun p => satisfiesPermission req p)) = false := by
        simp [PromotionRule.channels_permissions, h1f, h2f]
      simp [resolveChannelsGated, resolveGatedField, hreq, hany]

/-- A concrete context for exercising the `channels` gate: an authenticated
app requester; the channel loader returns channels 7 and 8 for every rule. -/
def ctx9 : Context :=
  ⟨some ⟨UserOrApp.app ⟨2⟩, [], false⟩, fun _ => none, fun _ => none,
   fun _ => [7, 8], fun _ => [], fun _ => [], fun _ => none⟩

/-- Witness for C9: an authenticated app lists the full channel set of the
rule. -/
theorem channels_gated_witness :
    resolveChannelsGated ctx9 ⟨3, 1⟩ = Except.ok [7, 8] :=
  ((channels_gated ctx9 ⟨3, 1⟩).2.2 ⟨UserOrApp.app ⟨2⟩, [], false⟩ rfl).1
    (Or.inl rfl)

/-- C10: for every `Promotion`, resolving `rules` yields exactly the list the
batched rules loader returns for the promotion's id, and resolving `events`
yields exactly the list the batched events loader returns — same length and
same element at every position, with no filtering, reordering or sorting. -/
theorem promotion_rules_events_roundtrip (ctx : Context) (p : PromotionRecord)
    (rs : List PromotionRuleRecord) (es : List PromotionEventRecord)
    (hr : ctx.promotionRulesByPromotionId p.id = rs)
    (he : ctx.promotionEventsByPromotionId p.id = es) :
    Promotion.resolve_rules ctx p = rs ∧
    (Promotion.resolve_rules ctx p).length = rs.length ∧
    (∀ i (h1 : i < (Promotion.resolve_rules ctx p).length) (h2 : i < rs.length),
      (Promotion.resolve_rules ctx p).get ⟨i, h1⟩ = rs.get ⟨i, h2⟩) ∧
    Promotion.resolve_events ctx p = es ∧
    (Promotion.resolve_events ctx p).length = es.length ∧
    (∀ i (h1 : i < (Promotion.resolve_events ctx p).length)
        (h2 : i < es.length),
      (Promotion.resolve_events ctx p).get ⟨i, h1⟩ = es.get ⟨i, h2⟩) := by
  subst hr
  subst he
  refine ⟨rfl, rfl, ?_, rfl, rfl, ?_⟩ <;> (intro i h1 h2; rfl)

/-- A concrete context for the round-trip claim: the loaders return one rule
and two events for every promotion id. -/
def ctx10 : Context :=
  ⟨none, fun _ => none, fun _ => none, fun _ => [],
   fun _ => [⟨11, 1⟩],
   fun _ => [⟨5, "promotion_created", none, none, []⟩,
             ⟨6, "promotion_ended", none, none, []⟩],
   fun _ => none⟩

/-- Witness for C10: a promotion with one rule and two events traverses to
exactly that rule and exactly those two events, in loader order. -/
theorem promotion_rules_events_roundtrip_witness :
    Promotion.resolve_rules ctx10 ⟨1⟩ = [⟨11, 1⟩] ∧
    Promotion.resolve_events ctx10 ⟨1⟩ =
      [⟨5, "promotion_created", none, none, []⟩,
       ⟨6, "promotion_ended", none, none, []⟩] :=
  ⟨(promotion_rules_events_roundtrip ctx10 ⟨1⟩ [⟨11, 1⟩]
      [⟨5, "promotion_created", none, none, []⟩,
       ⟨6, "promotion_ended", none, none, []⟩] rfl rfl).1,
   (promotion_rules_events_roundtrip ctx10 ⟨1⟩ [⟨11, 1⟩]
      [⟨5, "promotion_created", none, none, []⟩,
       ⟨6, "promotion_ended", none, none, []⟩] rfl rfl).2.2.2.1⟩
